import Mathlib

/-!
Verification of `src/hooks/ios_reminder_hook.py`: a hook that reads one JSON
object from standard input, and, when the edited file is a Swift source file,
scans the proposed content for four anti-pattern substrings, printing a JSON
approval with an optional advisory message.

Modelling choices: Python strings are character lists (`List Char`), the
Python substring test `a in b` is contiguous-subsequence containment
(`List.IsInfix`), the JSON objects printed by the hook are `Response`
records, and one process run is a total function from the parsed standard
input to the pair of printed-object streams plus the exit status.
-/

namespace IosReminderHook

/-- Python substring test `needle in haystack`, on character lists. -/
def containsSub (needle haystack : List Char) : Bool :=
  decide (needle <:+: haystack)

/-- The fields of the `tool_input` mapping that the hook reads; `none` models
an absent key. A missing `tool_input` key defaults to the empty mapping,
i.e. the record with every field `none`. -/
structure ToolInput where
  file_path : Option (List Char)
  content : Option (List Char)
  new_string : Option (List Char)
deriving DecidableEq

/-- Line 19: `tool_input.get("content", "") or tool_input.get("new_string", "")`.
Python `or` keeps the first operand exactly when it is truthy, i.e. a
non-empty string. -/
def getContent (ti : ToolInput) : List Char :=
  if ti.content.getD [] ≠ [] then ti.content.getD [] else ti.new_string.getD []

/-- Line 25 advisory text. -/
def observableMsg : List Char :=
  "Consider using @Observable (iOS 17+) instead of ObservableObject".toList

/-- Line 28 advisory text. -/
def forceUnwrapMsg : List Char :=
  "Avoid force unwrapping - use guard let or if let".toList

/-- Line 31 advisory text. -/
def mainActorMsg : List Char :=
  "Consider @MainActor instead of DispatchQueue.main in async contexts".toList

/-- Line 34 advisory text. -/
def lazyVStackMsg : List Char :=
  "Consider LazyVStack for better performance with ForEach".toList

/-- Line 24: `"ObservableObject" in content and "@Observable" not in content`. -/
def observableRule (content : List Char) : Bool :=
  containsSub "ObservableObject".toList content &&
    !containsSub "@Observable".toList content

/-- Line 27: `"force unwrap" in content.lower() or content.count("!") > 5`. -/
def forceUnwrapRule (content : List Char) : Bool :=
  containsSub "force unwrap".toList (content.map Char.toLower) ||
    decide (content.count '!' > 5)

/-- Line 30: `"DispatchQueue.main" in content and "async" in content`. -/
def mainActorRule (content : List Char) : Bool :=
  containsSub "DispatchQueue.main".toList content &&
    containsSub "async".toList content

/-- Line 33: the non-lazy vertical-stack opening token and the repeating-view
marker present, and the lazy marker absent. -/
def lazyVStackRule (content : List Char) : Bool :=
  containsSub "VStack \x7b".toList content &&
    containsSub "ForEach".toList content &&
      !containsSub "LazyVStack".toList content

/-- Lines 21 to 34: the `reminders` list accumulated by the four rule checks,
in source order. -/
def reminders (content : List Char) : List (List Char) :=
  (if observableRule content then [observableMsg] else []) ++
    (if forceUnwrapRule content then [forceUnwrapMsg] else []) ++
      (if mainActorRule content then [mainActorMsg] else []) ++
        (if lazyVStackRule content then [lazyVStackMsg] else [])

/-- Line 37: the header line followed by one dash-bulleted line per reminder,
joined with newlines. -/
def reminder_text (rs : List (List Char)) : List Char :=
  "iOS Best Practices:\n".toList ++
    List.intercalate "\n".toList (rs.map (fun r => "- ".toList ++ r))

/-- One JSON object printed by the hook: the `decision` field and the
optional `message` field. -/
structure Response where
  decision : List Char
  message : Option (List Char)
deriving DecidableEq

/-- The default object: decision `approve` and no message key. -/
def approveResponse : Response :=
  ⟨"approve".toList, none⟩

/-- Lines 9 to 43: the try-block on a successfully parsed input, returning
the single JSON object it prints to standard output. -/
def processInput (ti : ToolInput) : Response :=
  let file_path := ti.file_path.getD []
  if List.isSuffixOf ".swift".toList file_path = false then approveResponse
  else
    let content := getContent ti
    let rs := reminders content
    if rs.isEmpty then approveResponse
    else ⟨"approve".toList, some (reminder_text rs)⟩

/-- One run's standard input as seen from inside the try-block: `malformed`
when `json.loads` raises, `badFields` when a field holds a value on which a
later attribute access or string operation raises, `wellFormed` when
extraction succeeds and yields the relevant fields of `tool_input`. The two
failure cases land in the except branch of `main`. -/
inductive StdinInput where
  | malformed : StdinInput
  | badFields : StdinInput
  | wellFormed : ToolInput → StdinInput
deriving DecidableEq

/-- The observable effect of one process run: the JSON objects printed to
each of the two streams, and whether the process exits with success status. -/
structure RunResult where
  stdout : List Response
  stderr : List Response
  exitSuccess : Bool
deriving DecidableEq

/-- Lines 8 to 46. In the source every operation that can raise sits before
the first print of the try-block, so a failing run prints nothing to standard
output; the except branch prints the default object to the error stream. No
path raises out of `main`, and the interpreter exits with status 0. -/
def main : StdinInput → RunResult
  | .malformed => ⟨[], [approveResponse], true⟩
  | .badFields => ⟨[], [approveResponse], true⟩
  | .wellFormed ti => ⟨[processInput ti], [], true⟩

/-- A content string firing exactly the selected subset of the four rules;
used to show the rules are independent. -/
def trigger (b1 b2 b3 b4 : Bool) : List Char :=
  (if b1 then "ObservableObject".toList else []) ++
    (if b2 then "!!!!!!".toList else []) ++
      (if b3 then "DispatchQueue.main async".toList else []) ++
        (if b4 then "VStack \x7b ForEach".toList else [])

/-- Containment test `containsSub` decides contiguous-subsequence
containment. -/
theorem containsSub_eq_true_iff (n h : List Char) :
    containsSub n h = true ↔ n <:+: h := by
  simp [containsSub]

/-- Containment test `containsSub` is false exactly on non-containment. -/
theorem containsSub_eq_false_iff (n h : List Char) :
    containsSub n h = false ↔ ¬ n <:+: h := by
  simp [containsSub]

/-- The force-unwrap predicate, unfolded to the two source conditions. -/
theorem forceUnwrapRule_iff (c : List Char) :
    forceUnwrapRule c = true ↔
      ("force unwrap".toList <:+: c.map Char.toLower ∨ 5 < c.count '!') := by
  simp [forceUnwrapRule, containsSub]

/-- The lazy-stack predicate, unfolded to the three source conditions. -/
theorem lazyVStackRule_iff (c : List Char) :
    lazyVStackRule c = true ↔
      ("VStack \x7b".toList <:+: c ∧ "ForEach".toList <:+: c ∧
        ¬ "LazyVStack".toList <:+: c) := by
  simp [lazyVStackRule, containsSub, and_assoc]

/-- Every element of a reminders list is one of the four advisory texts. -/
theorem reminders_subset (c : List Char) :
    ∀ r ∈ reminders c,
      r = observableMsg ∨ r = forceUnwrapMsg ∨ r = mainActorMsg ∨
        r = lazyVStackMsg := by
  unfold reminders
  cases h1 : observableRule c <;> cases h2 : forceUnwrapRule c <;>
    cases h3 : mainActorRule c <;> cases h4 : lazyVStackRule c <;>
      decide

/-- Each rule contributes at most one advisory. -/
theorem reminders_length_le (c : List Char) : (reminders c).length ≤ 4 := by
  unfold reminders
  cases h1 : observableRule c <;> cases h2 : forceUnwrapRule c <;>
    cases h3 : mainActorRule c <;> cases h4 : lazyVStackRule c <;>
      decide

/-- The force-unwrap advisory occurs once when its rule fires, else never. -/
theorem count_reminders_forceUnwrap (c : List Char) :
    (reminders c).count forceUnwrapMsg =
      if forceUnwrapRule c then 1 else 0 := by
  unfold reminders
  cases h1 : observableRule c <;> cases h2 : forceUnwrapRule c <;>
    cases h3 : mainActorRule c <;> cases h4 : lazyVStackRule c <;>
      decide

/-- The migration advisory is present exactly when its rule fires. -/
theorem mem_reminders_observable (c : List Char) :
    observableMsg ∈ reminders c ↔ observableRule c = true := by
  unfold reminders
  cases h1 : observableRule c <;> cases h2 : forceUnwrapRule c <;>
    cases h3 : mainActorRule c <;> cases h4 : lazyVStackRule c <;>
      decide

/-- The lazy-stack advisory is present exactly when its rule fires. -/
theorem mem_reminders_lazyVStack (c : List Char) :
    lazyVStackMsg ∈ reminders c ↔ lazyVStackRule c = true := by
  unfold reminders
  cases h1 : observableRule c <;> cases h2 : forceUnwrapRule c <;>
    cases h3 : mainActorRule c <;> cases h4 : lazyVStackRule c <;>
      decide

/-- When the migration rule fires, its advisory heads the list. -/
theorem reminders_head_observable (c : List Char)
    (h : observableRule c = true) :
    (reminders c).head? = some observableMsg := by
  simp [reminders, h]

/-- The joined message of a nonempty list of advisories splits on newlines
back into the header line followed by the dash-bulleted advisory lines. -/
theorem splitOn_reminder_text (rs : List (List Char))
    (hsub : ∀ r ∈ rs,
      r = observableMsg ∨ r = forceUnwrapMsg ∨ r = mainActorMsg ∨
        r = lazyVStackMsg)
    (hne : rs ≠ []) :
    (reminder_text rs).splitOn '\n' =
      "iOS Best Practices:".toList :: rs.map (fun r => "- ".toList ++ r) := by
  have hlines : ∀ l ∈ "iOS Best Practices:".toList ::
      rs.map (fun r => "- ".toList ++ r), '\n' ∉ l := by
    intro l hl
    rcases List.mem_cons.mp hl with h | h
    · subst h; decide
    · rcases List.mem_map.mp h with ⟨r, hr, rfl⟩
      rcases hsub r hr with h | h | h | h <;> subst h <;> decide
  have key : reminder_text rs =
      ['\n'].intercalate
        ("iOS Best Practices:".toList :: rs.map (fun r => "- ".toList ++ r)) := by
    cases rs with
    | nil => exact absurd rfl hne
    | cons a t =>
        show "iOS Best Practices:\n".toList ++ _ = _
        simp [List.intercalate, List.map_cons, List.intersperse]
  rw [key]
  exact List.splitOn_intercalate _ '\n' hlines (List.cons_ne_nil _ _)

/-- Unfolding of `processInput` to its three result cases. -/
theorem processInput_eq (ti : ToolInput) :
    processInput ti =
      if List.isSuffixOf ".swift".toList (ti.file_path.getD []) = false then
        approveResponse
      else if (reminders (getContent ti)).isEmpty then approveResponse
      else ⟨"approve".toList, some (reminder_text (reminders (getContent ti)))⟩ :=
  rfl

/-- On a Swift path, standard output is the single response selected by the
emptiness of the reminders list. -/
theorem main_stdout_swift (ti : ToolInput)
    (h : List.isSuffixOf ".swift".toList (ti.file_path.getD []) = true) :
    (IosReminderHook.main (StdinInput.wellFormed ti)).stdout =
      [if (reminders (getContent ti)).isEmpty then approveResponse
        else ⟨"approve".toList,
          some (reminder_text (reminders (getContent ti)))⟩] := by
  have hcond :
      ¬ (List.isSuffixOf ".swift".toList (ti.file_path.getD []) = false) := by
    intro hfalse
    rw [h] at hfalse
    exact Bool.noConfusion hfalse
  have hm : IosReminderHook.main (StdinInput.wellFormed ti) =
      ⟨[processInput ti], [], true⟩ := rfl
  rw [hm, processInput_eq, if_neg hcond]

/-- On a Swift path with at least one advisory, standard output is the
single response carrying the joined message. -/
theorem main_stdout_swift_fire (ti : ToolInput)
    (h : List.isSuffixOf ".swift".toList (ti.file_path.getD []) = true)
    (hne : reminders (getContent ti) ≠ []) :
    (IosReminderHook.main (StdinInput.wellFormed ti)).stdout =
      [⟨"approve".toList,
        some (reminder_text (reminders (getContent ti)))⟩] := by
  rw [main_stdout_swift ti h]
  have hcond : ¬ ((reminders (getContent ti)).isEmpty = true) := by
    simp [hne]
  rw [if_neg hcond]

/-- The force-unwrap advisory count, phrased on the two source conditions. -/
theorem count_reminders_forceUnwrap_cond (c : List Char) :
    (reminders c).count forceUnwrapMsg =
      (if "force unwrap".toList <:+: c.map Char.toLower ∨ 5 < c.count '!'
        then 1 else 0) := by
  rw [count_reminders_forceUnwrap]
  by_cases hcond :
      ("force unwrap".toList <:+: c.map Char.toLower ∨ 5 < c.count '!')
  · rw [if_pos ((forceUnwrapRule_iff c).mpr hcond), if_pos hcond]
  · rw [if_neg (fun htrue => hcond ((forceUnwrapRule_iff c).mp htrue)),
      if_neg hcond]

/-- Claim C1: for every standard input, including the malformed and
wrongly-typed cases, the run exits with success status, and on either
failure case the default approval object is written to the error stream. -/
theorem c1_fail_open (inp : StdinInput) :
    (IosReminderHook.main inp).exitSuccess = true ∧
      (inp = StdinInput.malformed ∨ inp = StdinInput.badFields →
        (IosReminderHook.main inp).stderr = [approveResponse]) := by
  cases inp <;> simp [IosReminderHook.main]

/-- Claim C1 at the malformed input. -/
theorem c1_fail_open_witness :
    (IosReminderHook.main StdinInput.malformed).exitSuccess = true ∧
      (IosReminderHook.main StdinInput.malformed).stderr = [approveResponse] :=
  ⟨(c1_fail_open StdinInput.malformed).1,
    (c1_fail_open StdinInput.malformed).2 (Or.inl rfl)⟩

/-- Claim C2: when the file path does not end in `.swift`, standard output
gets exactly the default approval object, which carries no message key. -/
theorem c2_non_swift_approve (ti : ToolInput)
    (h : List.isSuffixOf ".swift".toList (ti.file_path.getD []) = false) :
    (IosReminderHook.main (StdinInput.wellFormed ti)).stdout =
        [approveResponse] ∧
      approveResponse.message = none := by
  have hp : processInput ti = approveResponse := by
    rw [processInput_eq, if_pos h]
  exact ⟨by simp [IosReminderHook.main, hp], rfl⟩

/-- Claim C2 at a Python path full of anti-pattern content. -/
theorem c2_non_swift_approve_witness :
    (IosReminderHook.main (StdinInput.wellFormed
        ⟨some "Model.py".toList,
          some "DispatchQueue.main async !!!!!! ObservableObject".toList,
            none⟩)).stdout = [approveResponse] ∧
      approveResponse.message = none :=
  c2_non_swift_approve _ (by decide)

/-- Claim C6: the content string is the `content` field when present and
non-empty, otherwise the `new_string` field when present, otherwise the
empty string. -/
theorem c6_content_precedence (ti : ToolInput) :
    (∀ c, ti.content = some c → c ≠ [] → getContent ti = c) ∧
      ((ti.content = none ∨ ti.content = some []) →
        (∀ s, ti.new_string = some s → getContent ti = s) ∧
          (ti.new_string = none → getContent ti = [])) := by
  constructor
  · intro c hc hne
    simp [getContent, hc, hne]
  · intro hc
    constructor
    · intro s hs
      rcases hc with h | h <;> simp [getContent, h, hs]
    · intro hs
      rcases hc with h | h <;> simp [getContent, h, hs]

/-- Claim C6 at a non-empty `content`, an absent `content`, and an empty
`content` with absent `new_string`. -/
theorem c6_content_precedence_witness :
    getContent ⟨none, some "abc".toList, some "xyz".toList⟩ = "abc".toList ∧
      getContent ⟨none, none, some "xyz".toList⟩ = "xyz".toList ∧
        getContent ⟨none, some [], none⟩ = [] :=
  ⟨(c6_content_precedence _).1 _ rfl (by decide),
    ((c6_content_precedence _).2 (Or.inl rfl)).1 _ rfl,
      ((c6_content_precedence _).2 (Or.inr rfl)).2 rfl⟩

/-- Claim C8: content containing the combined token always contains the
modern marker, so the migration rule can never fire. -/
theorem c8_at_observable_suppressed (content : List Char)
    (h : "@ObservableObject".toList <:+: content) :
    observableRule content = false ∧ observableMsg ∉ reminders content := by
  have hmod : "@Observable".toList <:+: content :=
    List.IsInfix.trans (by decide) h
  have h1 : observableRule content = false := by
    simp only [observableRule, containsSub, Bool.and_eq_false_iff,
      Bool.not_eq_false', decide_eq_true_eq]
    exact Or.inr hmod
  refine ⟨h1, fun hmem => ?_⟩
  rw [mem_reminders_observable] at hmem
  simp [h1] at hmem

/-- Claim C8 at the combined token itself. -/
theorem c8_at_observable_suppressed_witness :
    observableRule "@ObservableObject".toList = false ∧
      observableMsg ∉ reminders "@ObservableObject".toList :=
  c8_at_observable_suppressed _ (by decide)

/-- Claim C9: on the error path nothing is written to standard output; the
sole default approval object goes to the error stream. -/
theorem c9_error_path_stdout_empty (inp : StdinInput)
    (h : ∀ ti, inp ≠ StdinInput.wellFormed ti) :
    (IosReminderHook.main inp).stdout = [] ∧
      (IosReminderHook.main inp).stderr = [approveResponse] := by
  cases inp with
  | malformed => exact ⟨rfl, rfl⟩
  | badFields => exact ⟨rfl, rfl⟩
  | wellFormed ti => exact absurd rfl (h ti)

/-- Claim C9 at the malformed input. -/
theorem c9_error_path_stdout_empty_witness :
    (IosReminderHook.main StdinInput.malformed).stdout = [] ∧
      (IosReminderHook.main StdinInput.malformed).stderr = [approveResponse] :=
  c9_error_path_stdout_empty StdinInput.malformed
    (fun _ h => StdinInput.noConfusion h)

/-- Claim C3: for a Swift path, standard output is the single response built
from the reminders list, and the force-unwrap advisory occurs in that list
exactly once when the lowercased content contains the phrase or the count of
exclamation marks exceeds five, and never otherwise. -/
theorem c3_force_unwrap_exactly_once (ti : ToolInput)
    (h : List.isSuffixOf ".swift".toList (ti.file_path.getD []) = true) :
    (IosReminderHook.main (StdinInput.wellFormed ti)).stdout =
        [if (reminders (getContent ti)).isEmpty then approveResponse
          else ⟨"approve".toList,
            some (reminder_text (reminders (getContent ti)))⟩] ∧
      (reminders (getContent ti)).count forceUnwrapMsg =
        (if "force unwrap".toList <:+: (getContent ti).map Char.toLower ∨
            5 < (getContent ti).count '!' then 1 else 0) := by
  exact ⟨main_stdout_swift ti h, count_reminders_forceUnwrap_cond _⟩

/-- Claim C3 at six exclamation marks. -/
theorem c3_force_unwrap_exactly_once_witness :
    (reminders (getContent
      ⟨some "View.swift".toList, some "a!b!c!d!e!f!".toList, none⟩)).count
        forceUnwrapMsg = 1 := by
  have h := (c3_force_unwrap_exactly_once
    ⟨some "View.swift".toList, some "a!b!c!d!e!f!".toList, none⟩ (by decide)).2
  rw [h]
  decide

/-- Claim C4: for a Swift path whose content has the legacy marker and not
the modern marker, the migration advisory heads the reminders list and is
the first advisory line of the printed message. -/
theorem c4_migration_first (ti : ToolInput)
    (hswift : List.isSuffixOf ".swift".toList (ti.file_path.getD []) = true)
    (hleg : "ObservableObject".toList <:+: getContent ti)
    (hmod : ¬ "@Observable".toList <:+: getContent ti) :
    (reminders (getContent ti)).head? = some observableMsg ∧
      ∃ m, (IosReminderHook.main (StdinInput.wellFormed ti)).stdout =
          [⟨"approve".toList, some m⟩] ∧
        (m.splitOn '\n').tail.head? = some ("- ".toList ++ observableMsg) := by
  have hrule : observableRule (getContent ti) = true := by
    simp only [observableRule, containsSub, Bool.and_eq_true,
      Bool.not_eq_true', decide_eq_true_eq, decide_eq_false_iff_not]
    exact ⟨hleg, hmod⟩
  have hhead := reminders_head_observable _ hrule
  obtain ⟨t, ht⟩ : ∃ t, reminders (getContent ti) = observableMsg :: t := by
    cases hrs : reminders (getContent ti) with
    | nil => rw [hrs] at hhead; cases hhead
    | cons a s =>
        rw [hrs] at hhead
        simp only [List.head?_cons, Option.some.injEq] at hhead
        exact ⟨s, by rw [hhead]⟩
  refine ⟨hhead, reminder_text (reminders (getContent ti)), ?_, ?_⟩
  · exact main_stdout_swift_fire ti hswift
      (by rw [ht]; exact List.cons_ne_nil _ _)
  · rw [splitOn_reminder_text _ (reminders_subset _)
      (by rw [ht]; exact List.cons_ne_nil _ _), ht]
    simp

/-- Claim C4 at a class declaration using the legacy protocol. -/
theorem c4_migration_first_witness :
    (reminders (getContent ⟨some "View.swift".toList,
      some "class M: ObservableObject".toList, none⟩)).head? =
        some observableMsg :=
  (c4_migration_first ⟨some "View.swift".toList,
    some "class M: ObservableObject".toList, none⟩
      (by decide) (by decide) (by decide)).1

/-- Claim C5: when at least one advisory fires for a Swift path, the printed
message splits on newlines into the fixed header followed by one
dash-bulleted line per advisory in rule order; moreover every subset of the
four rules, including all or none, is realised by some content. -/
theorem c5_message_format (ti : ToolInput)
    (hswift : List.isSuffixOf ".swift".toList (ti.file_path.getD []) = true)
    (hfire : reminders (getContent ti) ≠ []) :
    (∃ m, (IosReminderHook.main (StdinInput.wellFormed ti)).stdout =
        [⟨"approve".toList, some m⟩] ∧
      m.splitOn '\n' =
        "iOS Best Practices:".toList ::
          (reminders (getContent ti)).map (fun r => "- ".toList ++ r)) ∧
    (∀ b1 b2 b3 b4 : Bool, ∃ c,
      observableRule c = b1 ∧ forceUnwrapRule c = b2 ∧
        mainActorRule c = b3 ∧ lazyVStackRule c = b4) := by
  constructor
  · exact ⟨reminder_text (reminders (getContent ti)),
      main_stdout_swift_fire ti hswift hfire,
        splitOn_reminder_text _ (reminders_subset _) hfire⟩
  · intro b1 b2 b3 b4
    refine ⟨trigger b1 b2 b3 b4, ?_, ?_, ?_, ?_⟩ <;>
      cases b1 <;> cases b2 <;> cases b3 <;> cases b4 <;> decide

/-- Claim C5 at six exclamation marks: the message is the header plus the
single force-unwrap line. -/
theorem c5_message_format_witness :
    ∃ m, (IosReminderHook.main (StdinInput.wellFormed
        ⟨some "View.swift".toList, some "a!b!c!d!e!f!".toList, none⟩)).stdout =
        [⟨"approve".toList, some m⟩] ∧
      m.splitOn '\n' =
        "iOS Best Practices:".toList ::
          (reminders (getContent
            ⟨some "View.swift".toList, some "a!b!c!d!e!f!".toList,
              none⟩)).map (fun r => "- ".toList ++ r) :=
  (c5_message_format _ (by decide) (by decide)).1

/-- Claim C7: for a Swift path, standard output is the single response built
from the reminders list, and the lazy-stack advisory is present exactly when
the content has the stack-opening and repeating-view tokens and lacks the
lazy marker. -/
theorem c7_lazy_stack_iff (ti : ToolInput)
    (h : List.isSuffixOf ".swift".toList (ti.file_path.getD []) = true) :
    (IosReminderHook.main (StdinInput.wellFormed ti)).stdout =
        [if (reminders (getContent ti)).isEmpty then approveResponse
          else ⟨"approve".toList,
            some (reminder_text (reminders (getContent ti)))⟩] ∧
      (lazyVStackMsg ∈ reminders (getContent ti) ↔
        ("VStack \x7b".toList <:+: getContent ti ∧
          "ForEach".toList <:+: getContent ti ∧
            ¬ "LazyVStack".toList <:+: getContent ti)) := by
  refine ⟨main_stdout_swift ti h, ?_⟩
  rw [mem_reminders_lazyVStack, lazyVStackRule_iff]

/-- Claim C7 at a non-lazy stack with a repeating view, supplied through the
`new_string` field. -/
theorem c7_lazy_stack_iff_witness :
    lazyVStackMsg ∈ reminders (getContent ⟨some "View.swift".toList, none,
      some "VStack \x7b ForEach".toList⟩) :=
  ((c7_lazy_stack_iff ⟨some "View.swift".toList, none,
    some "VStack \x7b ForEach".toList⟩ (by decide)).2).mpr
      ⟨by decide, by decide, by decide⟩

/-- Claim C10: every printed object carries decision `approve`, and any
message splits into at most five newline-separated lines: the header plus at
most four advisories. -/
theorem c10_approve_bounded (inp : StdinInput) :
    ∀ r ∈ (IosReminderHook.main inp).stdout ++
        (IosReminderHook.main inp).stderr,
      r.decision = "approve".toList ∧
        ∀ m, r.message = some m → (m.splitOn '\n').length ≤ 5 := by
  intro r hr
  cases inp with
  | malformed =>
      simp [IosReminderHook.main] at hr
      subst hr
      exact ⟨rfl, fun m hm => by simp [approveResponse] at hm⟩
  | badFields =>
      simp [IosReminderHook.main] at hr
      subst hr
      exact ⟨rfl, fun m hm => by simp [approveResponse] at hm⟩
  | wellFormed ti =>
      simp [IosReminderHook.main] at hr
      subst hr
      rw [processInput_eq]
      by_cases hs :
          List.isSuffixOf ".swift".toList (ti.file_path.getD []) = false
      · rw [if_pos hs]
        exact ⟨rfl, fun m hm => by simp [approveResponse] at hm⟩
      · rw [if_neg hs]
        by_cases he : (reminders (getContent ti)).isEmpty = true
        · rw [if_pos he]
          exact ⟨rfl, fun m hm => by simp [approveResponse] at hm⟩
        · rw [if_neg he]
          refine ⟨rfl, fun m hm => ?_⟩
          have hm' : some (reminder_text (reminders (getContent ti))) =
              some m := hm
          obtain rfl : m = reminder_text (reminders (getContent ti)) :=
            (Option.some.inj hm').symm
          have hne : reminders (getContent ti) ≠ [] := by
            intro h0
            rw [h0] at he
            exact he rfl
          rw [splitOn_reminder_text _ (reminders_subset _) hne]
          simp only [List.length_cons, List.length_map]
          have hlen := reminders_length_le (getContent ti)
          omega

/-- Claim C10 at a message-producing input. -/
theorem c10_approve_bounded_witness :
    (processInput ⟨some "View.swift".toList, some "a!b!c!d!e!f!".toList,
        none⟩).decision = "approve".toList ∧
      ∀ m, (processInput ⟨some "View.swift".toList,
          some "a!b!c!d!e!f!".toList, none⟩).message = some m →
        (m.splitOn '\n').length ≤ 5 :=
  c10_approve_bounded (StdinInput.wellFormed
    ⟨some "View.swift".toList, some "a!b!c!d!e!f!".toList, none⟩) _
      (by simp [IosReminderHook.main])

end IosReminderHook
